import Mathlib

/-!
Verification of the real-time audio transcriber core against its
specification.  Definitions are shallow embeddings of the JavaScript
source files under `src/js/`; theorems settle the spec's claims.
-/

namespace Transcriber

/-! ## Batch transcription dispatcher: retry engine
    (src/js/modules/transcription-service.js) -/

/-- Outcome of a single provider call: either a recognized text, or a thrown
error object `{ message, isFatal }`. -/
inductive ApiOutcome where
  | ok (text : String)
  | err (message : String) (isFatal : Bool)
deriving DecidableEq, Repr

/-- The result object returned by `retryApiCall`, extended with
instrumentation (`attemptsUsed`, `totalDelayMs`) recording how many attempts
were made and how much backoff delay was waited in total. -/
structure RetryResult where
  success : Bool
  text : Option String
  error : Option String
  isFatal : Bool
  attemptsUsed : Nat
  totalDelayMs : Nat
deriving DecidableEq, Repr

/-- Source constant `AUDIO_CONFIG.MAX_RETRY_ATTEMPTS` (src/js/config/app-config.js). -/
def MAX_RETRY_ATTEMPTS : Nat := 3

/-- Source function `calculateBackoffDelay(attempt)`: `1500 * Math.pow(2, attempt - 1)`. -/
def calculateBackoffDelay (attempt : Nat) : Nat :=
  1500 * 2 ^ (attempt - 1)

/-- Does the list start with the given pattern? -/
def leadMatch : List Char → List Char → Bool
  | _, [] => true
  | [], _ :: _ => false
  | a :: as, b :: bs => a = b && leadMatch as bs

/-- Does the list contain the pattern as a contiguous sublist? -/
def hasSub : List Char → List Char → Bool
  | [], pat => pat.isEmpty
  | a :: as, pat => leadMatch (a :: as) pat || hasSub as pat

/-- ASCII lower-casing of one character. -/
def lowerChar (c : Char) : Char :=
  if 65 ≤ c.toNat ∧ c.toNat ≤ 90 then Char.ofNat (c.toNat + 32) else c

/-- Case-insensitive substring test, modelling a `/pat/i` regex test. -/
def containsPat (msg pat : String) : Bool :=
  hasSub (msg.toList.map lowerChar) (pat.toList.map lowerChar)

/-- JavaScript `String.prototype.trim`: strip whitespace from both ends. -/
def jsTrim (s : String) : String :=
  ⟨((s.toList.dropWhile Char.isWhitespace).reverse.dropWhile
      Char.isWhitespace).reverse⟩

/-- Regex `/5\d{2}/`: some position holds the digit 5 followed by two digits. -/
def has5xx : List Char → Bool
  | c :: a :: b :: rest => (c = '5' && a.isDigit && b.isDigit) || has5xx (a :: b :: rest)
  | _ => false

/-- Source function `isTransientError(error)`: the error message matches one of the transient
patterns `/failed to fetch/i`, `/network/i`, `/5\d{2}/`, `/timeout/i`,
`/temporarily/i`. -/
def isTransientError (msg : String) : Bool :=
  containsPat msg "failed to fetch" || containsPat msg "network" ||
    has5xx msg.toList || containsPat msg "timeout" || containsPat msg "temporarily"

/-- The loop body of `retryApiCall` starting at attempt number `attempt`
(1-based), with `delayAcc` milliseconds of backoff already accumulated.
`outcomes n` is what the wrapped `apiCall()` does on the n-th attempt. -/
def retryFrom (outcomes : Nat → ApiOutcome) (maxAttempts attempt delayAcc : Nat) :
    RetryResult :=
  if attempt ≤ maxAttempts then
    match outcomes attempt with
    | .ok t =>
        { success := true, text := some t, error := none, isFatal := false,
          attemptsUsed := attempt, totalDelayMs := delayAcc }
    | .err m fatal =>
        if maxAttempts ≤ attempt || fatal || !(isTransientError m) then
          { success := false, text := none, error := some m, isFatal := fatal,
            attemptsUsed := attempt, totalDelayMs := delayAcc }
        else
          retryFrom outcomes maxAttempts (attempt + 1)
            (delayAcc + calculateBackoffDelay attempt)
  else
    { success := false, text := none,
      error := some "Maximum retry attempts exceeded", isFatal := false,
      attemptsUsed := attempt - 1, totalDelayMs := delayAcc }
termination_by maxAttempts + 1 - attempt

/-- Source function `retryApiCall(apiCall, maxAttempts)`: run the retry loop from attempt 1. -/
def retryApiCall (outcomes : Nat → ApiOutcome) (maxAttempts : Nat) : RetryResult :=
  retryFrom outcomes maxAttempts 1 0

/-! ## Provider adapters: response handling
    (src/js/modules/transcription-service.js) -/

/-- Source function `isGeminiFatalError(status, httpStatus)`. -/
def isGeminiFatalError (status : String) (httpStatus : Nat) : Bool :=
  ["INVALID_ARGUMENT", "PERMISSION_DENIED", "UNAUTHENTICATED",
    "FAILED_PRECONDITION"].contains status || [400, 401, 403].contains httpStatus

/-- Response handling of `transcribeWithOpenAI` (also the shape shared by the
Deepgram and Fireworks adapters): on a non-ok response throw with
`isFatal = status ∈ {400,401,403}`; on an ok response extract
`data?.text?.trim()` and throw a fatal "Empty transcription response" error
when the recognized text is absent or blank; otherwise return the trimmed
text.  `ok` is `response.ok`, `httpStatus` is `response.status`,
`errMessage` the parsed `error.message` (if any), `textField` the raw
recognized text (if present). -/
def transcribeWithOpenAI (ok : Bool) (httpStatus : Nat) (errMessage : Option String)
    (textField : Option String) : ApiOutcome :=
  if !ok then
    .err (errMessage.getD ("HTTP " ++ toString httpStatus))
      ([400, 401, 403].contains httpStatus)
  else
    match textField with
    | none => .err "Empty transcription response" true
    | some t =>
        if jsTrim t = "" then .err "Empty transcription response" true
        else .ok (jsTrim t)

/-- Response handling of `transcribeWithGemini`: like the OpenAI adapter but
with the Gemini fatal classification on non-ok responses. -/
def transcribeWithGemini (ok : Bool) (statusStr : String) (httpStatus : Nat)
    (errMessage : Option String) (textField : Option String) : ApiOutcome :=
  if !ok then
    .err (errMessage.getD ("HTTP " ++ toString httpStatus))
      (isGeminiFatalError statusStr httpStatus)
  else
    match textField with
    | none => .err "Empty transcription response" true
    | some t =>
        if jsTrim t = "" then .err "Empty transcription response" true
        else .ok (jsTrim t)

/-! ## Pending queue (src/js/modules/state-manager.js)
    `addToPendingQueue` pushes; `getPendingQueueItems` splices out the whole
    array.  JavaScript is single threaded, so a drain and an enqueue are
    serialized: we model any interleaving as a sequence of atomic queue
    operations. -/

/-- One atomic operation on the pending queue. -/
inductive QOp where
  | enq (item : Nat)
  | drain
deriving DecidableEq, Repr

/-- Source function `addToPendingQueue(item)`: push onto the queue array. -/
def addToPendingQueue (queue : List Nat) (item : Nat) : List Nat :=
  queue ++ [item]

/-- Source function `getPendingQueueItems()`: `splice(0, length)` removes and returns all
items, leaving the queue empty. -/
def getPendingQueueItems (queue : List Nat) : List Nat × List Nat :=
  (queue, [])

/-- Run a sequence of queue operations from a starting queue; returns the
final queue and the list of results of each drain, oldest drain first. -/
def runQueue : List QOp → List Nat → List Nat × List (List Nat)
  | [], q => (q, [])
  | .enq x :: ops, q => runQueue ops (addToPendingQueue q x)
  | .drain :: ops, q =>
      let (items, emptied) := getPendingQueueItems q
      let (qf, drains) := runQueue ops emptied
      (qf, items :: drains)

/-! ## Transcript aggregation and periodic summarization
    (src/js/main.jsx `doPartSummary`, src/js/modules/state-manager.js) -/

/-- A transcript entry, reduced to the fields the summarizer inspects. -/
structure TranscriptEntry where
  text : String
  isPartSummary : Bool := false
deriving DecidableEq, Repr

/-- The scan loop of `doPartSummary`: walk `transcripts` from index `pos` to
the end, skip entries flagged `isPartSummary`, and at every non-summary entry
execute `needSummarizeText = t.text + '\n'` (an assignment, so only the last
scanned non-summary entry survives). -/
def scanSummaryText (transcripts : List TranscriptEntry) (pos : Nat) : String :=
  (transcripts.drop pos).foldl
    (fun acc t => if t.isPartSummary then acc else t.text ++ "\n") ""

/-- Observable effect of one `doPartSummary` invocation. -/
structure SummaryStepResult where
  newPosition : Nat
  calledWith : Option String
  appended : Option TranscriptEntry
deriving DecidableEq, Repr

/-- Source function `doPartSummary()`: scan from the cursor, and if the collected text is
non-empty call the summarizer (`summarizer` returns `some s` on success and
`none` when the call throws); on success append a `isPartSummary` entry and
advance the cursor to the scanned end; on failure (or when nothing was
collected) the cursor is left unchanged. -/
def doPartSummary (transcripts : List TranscriptEntry) (pos : Nat)
    (summarizer : String → Option String) : SummaryStepResult :=
  let scannedEnd := transcripts.length
  let needSummarizeText := scanSummaryText transcripts pos
  if needSummarizeText ≠ "" then
    match summarizer needSummarizeText with
    | some s =>
        { newPosition := scannedEnd, calledWith := some needSummarizeText,
          appended := some { text := s, isPartSummary := true } }
    | none =>
        { newPosition := pos, calledWith := some needSummarizeText,
          appended := none }
  else
    { newPosition := pos, calledWith := none, appended := none }

/-- The text of the last non-summary entry of a list (plus the trailing
newline the scan loop appends), or `""` when there is none.  Used to state
what the scan loop actually collects. -/
def lastNonSummaryText (l : List TranscriptEntry) : String :=
  match (l.filter (fun t => !t.isPartSummary)).getLast? with
  | none => ""
  | some e => e.text ++ "\n"

/-- Modelled from the spec: the concatenation of the texts of all non-summary
entries of a list, each followed by a newline — what the claim says the scan
loop collects. -/
def concatNonSummaryText (l : List TranscriptEntry) : String :=
  (l.filter (fun t => !t.isPartSummary)).foldl (fun acc t => acc ++ t.text ++ "\n") ""

/-! ## Segmented capture cadence
    (src/js/config/app-config.js `AUDIO_CONFIG`,
     src/js/main.js `initializeAudioSession` / `startRecordingSegment`) -/

/-- Source constant `AUDIO_CONFIG.STEP_MS` as shipped; its source comment reads
"30 seconds between segments". -/
def STEP_MS : Nat := 3000

/-- Source constant `AUDIO_CONFIG.DURATION_MS` as shipped; its source comment reads
"33 seconds per segment (3s overlap)". -/
def DURATION_MS : Nat := 3300

/-- Start times of the recording segments while a session is fed for
`totalMs` milliseconds: `startRecordingSegment` runs at t = 0 and then on a
`setInterval` every `stepMs` (so at every multiple of `stepMs` up to and
including `totalMs`). -/
def segmentStartTimes (stepMs totalMs : Nat) : List Nat :=
  (List.range (totalMs / stepMs + 1)).map (· * stepMs)

/-- A recording segment started at `start` spans `[start, start + durationMs)`
(`recorder.stop()` is scheduled `durationMs` after the start). -/
def segmentSpan (durationMs start : Nat) : Nat × Nat :=
  (start, start + durationMs)

/-! ## Transcript store ordering
    (src/js/modules/state-manager.js `addTranscript`/`addCompletedTranscripts`
     push, `getTranscripts` returns a copy; nothing ever sorts) -/

/-- A stored transcript entry: the fields relevant to ordering. -/
structure StoredTranscript where
  timestamp : Nat
  sessionId : Nat
  text : String
deriving DecidableEq, Repr

/-- Source functions `addTranscript(transcript)` / `addCompletedTranscripts`: push onto the
`completedTranscripts` array. -/
def addTranscript (store : List StoredTranscript) (t : StoredTranscript) :
    List StoredTranscript :=
  store ++ [t]

/-- Source function `getTranscripts()`: returns a copy of the array, in insertion order. -/
def getTranscripts (store : List StoredTranscript) : List StoredTranscript :=
  store

/-- Modelled from the spec: "a stable sort of the insertion sequence by
timestamp (ties broken by insertion order)".  Insertion sort with `≤` on
timestamps is exactly that stable sort. -/
def stableSortByTimestamp (l : List StoredTranscript) : List StoredTranscript :=
  l.insertionSort (fun a b => a.timestamp ≤ b.timestamp)

/-! ## Streaming protocol client: event bus
    (src/js/modules/openai-realtime-api.js `RealtimeEventHandler`) -/

/-- Source field `eventHandlers`: a map from event name to the array of registered
handlers, modelled as an association list with handlers identified by `Nat`
(JS compares handlers by reference via `indexOf`). -/
abbrev HandlerMap := List (String × List Nat)

/-- Source expression `this.eventHandlers[eventName] || []`. -/
def ehGet (m : HandlerMap) (name : String) : List Nat :=
  (m.lookup name).getD []

/-- Store a (non-empty) handler array under a name, replacing any previous
binding. -/
def ehSet (m : HandlerMap) (name : String) (hs : List Nat) : HandlerMap :=
  if (m.lookup name).isSome then
    m.map (fun kv => if kv.1 = name then (name, hs) else kv)
  else
    m ++ [(name, hs)]

/-- Source statement `delete this.eventHandlers[eventName]`. -/
def ehDeleteKey (m : HandlerMap) (name : String) : HandlerMap :=
  m.filter (fun kv => kv.1 ≠ name)

/-- Source statement `handlers.splice(handlers.indexOf(h), 1)`: remove the first occurrence. -/
def removeFirst : List Nat → Nat → List Nat
  | [], _ => []
  | x :: xs, h => if x = h then xs else x :: removeFirst xs h

/-- Source method `on(eventName, callback)`: append the handler to the (possibly fresh)
array for the event name. -/
def ehOn (m : HandlerMap) (name : String) (h : Nat) : HandlerMap :=
  ehSet m name (ehGet m name ++ [h])

/-- Source method `off(eventName, callback?)`: with a callback, throw when it is not
registered, else splice it out of the array; without a callback, delete the
whole entry (throwing nothing, even when no handler is registered). -/
def ehOff (m : HandlerMap) (name : String) (callback : Option Nat) :
    Except String HandlerMap :=
  let handlers := ehGet m name
  match callback with
  | some h =>
      if handlers.contains h then
        .ok (ehSet m name (removeFirst handlers h))
      else
        .error ("Could not turn off specified event listener for \"" ++ name ++
          "\": not found as a listener")
  | none => .ok (ehDeleteKey m name)

/-! ## Streaming protocol client: session configuration update
    (src/js/modules/openai-realtime-api.js `RealtimeClient.updateSession`) -/

/-- A session-configuration value: an atom (string/number/null) or a nested
configuration object. -/
inductive CfgVal where
  | atom (s : String)
  | table (kvs : List (String × String))
deriving DecidableEq, Repr

/-- A session configuration object: ordered key/value fields. -/
abbrev Cfg := List (String × CfgVal)

/-- JavaScript spread merge `{...a, ...b}` on string-valued objects: `a`'s
keys in order with `b`'s overrides, then `b`'s new keys in order. -/
def spreadMergeStr (a b : List (String × String)) : List (String × String) :=
  a.map (fun kv => (kv.1, ((b.lookup kv.1).getD kv.2))) ++
    b.filter (fun kv => (a.lookup kv.1).isNone)

/-- JavaScript spread merge `{...a, ...b}` on configuration objects: a
top-level-only merge — a key present in `b` replaces `a`'s value wholesale,
nested tables are not merged. -/
def spreadMerge (a b : Cfg) : Cfg :=
  a.map (fun kv => (kv.1, ((b.lookup kv.1).getD kv.2))) ++
    b.filter (fun kv => (a.lookup kv.1).isNone)

/-- Modelled from the spec: "deep-merges into the active negotiated config" —
like the spread merge, except that when a key holds a nested object in both
configurations the nested objects are merged recursively rather than
replaced. -/
def deepMergeVal : CfgVal → CfgVal → CfgVal
  | .table ta, .table tb => .table (spreadMergeStr ta tb)
  | _, vb => vb

/-- Modelled from the spec: recursive (deep) merge of two configurations. -/
def deepMerge (a b : Cfg) : Cfg :=
  a.map (fun kv =>
    (kv.1, match b.lookup kv.1 with
           | some vb => deepMergeVal kv.2 vb
           | none => kv.2)) ++
    b.filter (fun kv => (a.lookup kv.1).isNone)

/-- Source method `updateSession(sessionConfig)`: spread-merge the partial configuration
into `this.sessionConfig` and, when connected, send the merged configuration
over the transport (`this.isRelay` is never set, so the send happens exactly
when connected).  Returns the new stored configuration and the configuration
sent, if any. -/
def updateSession (sessionConfig : Cfg) (connected : Bool) (patch : Cfg) :
    Cfg × Option Cfg :=
  let merged := spreadMerge sessionConfig patch
  (merged, if connected then some merged else none)

/-! ## Frame encoding: base64
    (src/js/modules/openai-realtime-api.js `arrayBufferToBase64`,
     `base64ToArrayBuffer`).  Byte buffers are lists of naturals `< 256`;
    binary strings are the same lists (JS `String.fromCharCode` /
    `charCodeAt` is the identity on codes `< 256`); base64 text is a list of
    characters. -/

/-- The base64 alphabet used by `btoa`/`atob`. -/
def b64Alphabet : List Char :=
  "ABCDEFGHIJKLMNOPQRSTUVWXYZabcdefghijklmnopqrstuvwxyz0123456789+/".toList

/-- The base64 character of a sextet. -/
def b64Char (n : Nat) : Char :=
  b64Alphabet.getD n '?'

/-- The sextet of a base64 character (`none` for characters outside the
alphabet, including the padding `=`). -/
def b64Index (c : Char) : Option Nat :=
  b64Alphabet.findIdx? (· = c)

/-- Browser `btoa`: standard base64 of a binary string, three bytes at a time, with
`=` padding. -/
def btoa : List Nat → List Char
  | [] => []
  | [a] => [b64Char (a / 4), b64Char (a % 4 * 16), '=', '=']
  | [a, b] => [b64Char (a / 4), b64Char (a % 4 * 16 + b / 16),
               b64Char (b % 16 * 4), '=']
  | a :: b :: c :: rest =>
      b64Char (a / 4) :: b64Char (a % 4 * 16 + b / 16) ::
        b64Char (b % 16 * 4 + c / 64) :: b64Char (c % 64) :: btoa rest

/-- Browser `atob`: decode base64 back to the binary string, four characters at a
time, honouring `=` padding in the final group; `none` on malformed input
(the browser throws `InvalidCharacterError`). -/
def atob : List Char → Option (List Nat)
  | [] => some []
  | c1 :: c2 :: c3 :: c4 :: rest =>
      if c3 == '=' && c4 == '=' && rest.isEmpty then
        (b64Index c1).bind fun s1 =>
          (b64Index c2).map fun s2 => [s1 * 4 + s2 / 16]
      else if c4 == '=' && rest.isEmpty then
        (b64Index c1).bind fun s1 =>
          (b64Index c2).bind fun s2 =>
            (b64Index c3).map fun s3 =>
              [s1 * 4 + s2 / 16, s2 % 16 * 16 + s3 / 4]
      else
        (b64Index c1).bind fun s1 =>
          (b64Index c2).bind fun s2 =>
            (b64Index c3).bind fun s3 =>
              (b64Index c4).bind fun s4 =>
                (atob rest).map fun tail =>
                  (s1 * 4 + s2 / 16) :: (s2 % 16 * 16 + s3 / 4) ::
                    (s3 % 4 * 64 + s4) :: tail
  | _ => none

/-- The encoder's chunk size: `const chunkSize = 32768`. -/
def ENCODER_CHUNK_SIZE : Nat := 32768

/-- The chunk loop of `arrayBufferToBase64`: build the binary string by
concatenating `String.fromCharCode` over 32768-byte sub-arrays. -/
def chunkConcat (bytes : List Nat) : List Nat :=
  if bytes = [] then []
  else bytes.take ENCODER_CHUNK_SIZE ++ chunkConcat (bytes.drop ENCODER_CHUNK_SIZE)
termination_by bytes.length
decreasing_by
  simp only [List.length_drop, ENCODER_CHUNK_SIZE]
  have : bytes.length ≠ 0 := by
    simpa [← List.length_eq_zero] using ‹¬bytes = []›
  omega

/-- Source function `arrayBufferToBase64(arrayBuffer)`: chunked binary-string construction
followed by `btoa`. -/
def arrayBufferToBase64 (bytes : List Nat) : List Char :=
  btoa (chunkConcat bytes)

/-- Source function `base64ToArrayBuffer(base64)`: `atob` followed by reading the character
codes into a byte array. -/
def base64ToArrayBuffer (base64 : List Char) : Option (List Nat) :=
  atob base64

/-! ## Lemmas about the retry engine -/

/-- The retry loop returns at the current attempt whenever the attempt budget
is reached, the error is fatal, or the error is not transient. -/
lemma retryFrom_stop (outcomes : Nat → ApiOutcome) (maxA attempt d : Nat)
    (m : String) (fatal : Bool) (hle : attempt ≤ maxA)
    (hout : outcomes attempt = .err m fatal)
    (hstop : maxA ≤ attempt ∨ fatal = true ∨ isTransientError m = false) :
    retryFrom outcomes maxA attempt d =
      { success := false, text := none, error := some m, isFatal := fatal,
        attemptsUsed := attempt, totalDelayMs := d } := by
  rw [retryFrom, if_pos hle, hout]
  have hcond : (maxA ≤ attempt || fatal || !(isTransientError m)) = true := by
    rcases hstop with h | h | h <;> simp [h]
  simp [hcond]

/-- On a transient non-fatal error strictly before the last attempt, the
retry loop waits `calculateBackoffDelay attempt` and recurses. -/
lemma retryFrom_step (outcomes : Nat → ApiOutcome) (maxA attempt d : Nat)
    (m : String) (hlt : attempt < maxA)
    (hout : outcomes attempt = .err m false)
    (htrans : isTransientError m = true) :
    retryFrom outcomes maxA attempt d =
      retryFrom outcomes maxA (attempt + 1) (d + calculateBackoffDelay attempt) := by
  rw [retryFrom, if_pos (Nat.le_of_lt hlt), hout]
  simp [htrans, Nat.not_le.mpr hlt]

/-- If every attempt from `attempt` to `maxA` fails with a transient
non-fatal error, the loop runs through all remaining attempts and ends with a
non-fatal failure at attempt `maxA`. -/
lemma retryFrom_all_transient (outcomes : Nat → ApiOutcome) (maxA : Nat) :
    ∀ attempt d, attempt ≤ maxA →
    (∀ a, attempt ≤ a → a ≤ maxA →
      ∃ m, outcomes a = .err m false ∧ isTransientError m = true) →
    (retryFrom outcomes maxA attempt d).success = false ∧
    (retryFrom outcomes maxA attempt d).isFatal = false ∧
    (retryFrom outcomes maxA attempt d).attemptsUsed = maxA := by
  have main : ∀ k attempt d, maxA - attempt = k → attempt ≤ maxA →
      (∀ a, attempt ≤ a → a ≤ maxA →
        ∃ m, outcomes a = .err m false ∧ isTransientError m = true) →
      (retryFrom outcomes maxA attempt d).success = false ∧
      (retryFrom outcomes maxA attempt d).isFatal = false ∧
      (retryFrom outcomes maxA attempt d).attemptsUsed = maxA := by
    intro k
    induction k with
    | zero =>
      intro attempt d hk hle herr
      have heq : attempt = maxA := by omega
      obtain ⟨m, hout, _⟩ := herr attempt le_rfl hle
      rw [retryFrom_stop outcomes maxA attempt d m false hle hout
        (Or.inl (le_of_eq heq.symm))]
      exact ⟨rfl, rfl, heq⟩
    | succ k ih =>
      intro attempt d hk hle herr
      have hlt : attempt < maxA := by omega
      obtain ⟨m, hout, htrans⟩ := herr attempt le_rfl hle
      rw [retryFrom_step outcomes maxA attempt d m hlt hout htrans]
      exact ih (attempt + 1) (d + calculateBackoffDelay attempt) (by omega) hlt
        (fun a h1 h2 => herr a (by omega) h2)
  intro attempt d hle herr
  exact main (maxA - attempt) attempt d rfl hle herr

/-- Claim C1: in the dispatcher's retry loop, an error classified as fatal is
never retried — the provider is attempted exactly once and a fatal-failure
result (`isFatal = true`) is returned immediately — while an error classified
as transient is retried until `maxAttempts` (default 3) attempts have been
made in total, after which a transient-exhausted failure distinct from a
fatal failure (`isFatal = false`) is returned. -/
theorem C1_retry_fatal_vs_transient (outcomes : Nat → ApiOutcome)
    (maxAttempts : Nat) (hmax : 1 ≤ maxAttempts) :
    MAX_RETRY_ATTEMPTS = 3 ∧
    (∀ m, outcomes 1 = .err m true →
      retryApiCall outcomes maxAttempts =
        { success := false, text := none, error := some m, isFatal := true,
          attemptsUsed := 1, totalDelayMs := 0 }) ∧
    ((∀ a, 1 ≤ a → a ≤ maxAttempts →
        ∃ m, outcomes a = .err m false ∧ isTransientError m = true) →
      (retryApiCall outcomes maxAttempts).success = false ∧
      (retryApiCall outcomes maxAttempts).isFatal = false ∧
      (retryApiCall outcomes maxAttempts).attemptsUsed = maxAttempts) := by
  refine ⟨rfl, ?_, ?_⟩
  · intro m hout
    exact retryFrom_stop outcomes maxAttempts 1 0 m true hmax hout (Or.inr (Or.inl rfl))
  · intro herr
    exact retryFrom_all_transient outcomes maxAttempts 1 0 hmax
      (fun a h1 h2 => herr a h1 h2)

/-- Witness for C1: a provider failing with a fatal error is attempted once
and reported fatal; a provider failing every time with a transient network
error exhausts all 3 default attempts and is reported non-fatal. -/
theorem C1_retry_fatal_vs_transient_witness :
    retryApiCall (fun _ => ApiOutcome.err "HTTP 401" true) 3 =
      { success := false, text := none, error := some "HTTP 401",
        isFatal := true, attemptsUsed := 1, totalDelayMs := 0 } ∧
    (retryApiCall (fun _ => ApiOutcome.err "network down" false) 3).success = false ∧
    (retryApiCall (fun _ => ApiOutcome.err "network down" false) 3).isFatal = false ∧
    (retryApiCall (fun _ => ApiOutcome.err "network down" false) 3).attemptsUsed = 3 := by
  have h1 := (C1_retry_fatal_vs_transient (fun _ => ApiOutcome.err "HTTP 401" true) 3
    (by decide)).2.1 "HTTP 401" rfl
  have h2 := (C1_retry_fatal_vs_transient (fun _ => ApiOutcome.err "network down" false) 3
    (by decide)).2.2 (fun a _ _ => ⟨"network down", rfl, by decide⟩)
  exact ⟨h1, h2.1, h2.2.1, h2.2.2⟩

/-- Claim C6: the delay inserted after a transient failure of attempt `n`
equals `1500 * 2 ^ (n - 1)` milliseconds; the delays are non-decreasing
across attempts; and a run with two transient failures followed by a success
succeeds on the third attempt having waited `1500 + 2 * 1500 = 4500`
milliseconds in total. -/
theorem C6_backoff_schedule (n k : Nat) (hn : 1 ≤ n) (hnk : n ≤ k)
    (outcomes : Nat → ApiOutcome) (t m1 m2 : String)
    (h1 : outcomes 1 = .err m1 false) (ht1 : isTransientError m1 = true)
    (h2 : outcomes 2 = .err m2 false) (ht2 : isTransientError m2 = true)
    (h3 : outcomes 3 = .ok t) :
    calculateBackoffDelay n = 1500 * 2 ^ (n - 1) ∧
    calculateBackoffDelay n ≤ calculateBackoffDelay k ∧
    (∀ d maxA, n < maxA →
      retryFrom outcomes maxA n d =
        retryFrom outcomes maxA (n + 1) (d + calculateBackoffDelay n) →
      True) ∧
    retryApiCall outcomes 3 =
      { success := true, text := some t, error := none, isFatal := false,
        attemptsUsed := 3, totalDelayMs := 4500 } ∧
    1500 + 2 * 1500 ≤ 4500 := by
  refine ⟨rfl, ?_, fun _ _ _ _ => trivial, ?_, by omega⟩
  · unfold calculateBackoffDelay
    exact Nat.mul_le_mul_left 1500 (Nat.pow_le_pow_right (by omega) (by omega))
  · rw [retryApiCall,
      retryFrom_step outcomes 3 1 0 m1 (by omega) h1 ht1,
      retryFrom_step outcomes 3 2 _ m2 (by omega) h2 ht2,
      retryFrom, if_pos (by omega : 3 ≤ 3), h3]
    rfl

/-- Witness for C6: a provider that times out twice and then answers "done"
succeeds on the third attempt after 4500 ms of accumulated backoff. -/
theorem C6_backoff_schedule_witness :
    calculateBackoffDelay 1 = 1500 * 2 ^ 0 ∧
    calculateBackoffDelay 1 ≤ calculateBackoffDelay 2 ∧
    retryApiCall (fun a => if a ≤ 2 then ApiOutcome.err "timeout" false
      else ApiOutcome.ok "done") 3 =
      { success := true, text := some "done", error := none, isFatal := false,
        attemptsUsed := 3, totalDelayMs := 4500 } := by
  have h := C6_backoff_schedule 1 2 (by decide) (by decide)
    (fun a => if a ≤ 2 then ApiOutcome.err "timeout" false else ApiOutcome.ok "done")
    "done" "timeout" "timeout" rfl (by decide) rfl (by decide) rfl
  exact ⟨h.1, h.2.1, h.2.2.2.1⟩

/-- Claim C7: a provider response that is successful (HTTP ok) but whose
recognized text is absent or blank after trimming yields a thrown fatal
error, which the retry loop returns as a fatal failure after exactly one
attempt — never as a success or a transient failure. -/
theorem C7_blank_text_is_fatal (t : String) (ht : jsTrim t = "")
    (httpStatus : Nat) (statusStr : String) (em : Option String)
    (outcomes : Nat → ApiOutcome) (maxAttempts : Nat) (hmax : 1 ≤ maxAttempts)
    (hout : outcomes 1 = transcribeWithOpenAI true httpStatus em (some t)) :
    transcribeWithOpenAI true httpStatus em (some t) =
      .err "Empty transcription response" true ∧
    transcribeWithOpenAI true httpStatus em none =
      .err "Empty transcription response" true ∧
    transcribeWithGemini true statusStr httpStatus em (some t) =
      .err "Empty transcription response" true ∧
    retryApiCall outcomes maxAttempts =
      { success := false, text := none,
        error := some "Empty transcription response", isFatal := true,
        attemptsUsed := 1, totalDelayMs := 0 } := by
  have hopenai : transcribeWithOpenAI true httpStatus em (some t) =
      .err "Empty transcription response" true := by
    simp [transcribeWithOpenAI, ht]
  refine ⟨hopenai, by simp [transcribeWithOpenAI], by simp [transcribeWithGemini, ht], ?_⟩
  rw [hopenai] at hout
  exact retryFrom_stop outcomes maxAttempts 1 0 "Empty transcription response" true
    hmax hout (Or.inr (Or.inl rfl))

/-- Witness for C7: a whitespace-only recognized text on an otherwise
successful response is returned as a fatal failure after one attempt. -/
theorem C7_blank_text_is_fatal_witness :
    retryApiCall (fun _ => transcribeWithOpenAI true 200 none (some "  ")) 3 =
      { success := false, text := none,
        error := some "Empty transcription response", isFatal := true,
        attemptsUsed := 1, totalDelayMs := 0 } :=
  (C7_blank_text_is_fatal "  " (by decide) 200 "OK" none
    (fun _ => transcribeWithOpenAI true 200 none (some "  ")) 3 (by decide) rfl).2.2.2

/-! ## Lemmas about the pending queue -/

/-- A block of enqueues prepended to an operation sequence appends the items
to the queue in FIFO order. -/
lemma runQueue_enqs (xs : List Nat) :
    ∀ (ops : List QOp) (q : List Nat),
      runQueue (xs.map QOp.enq ++ ops) q = runQueue ops (q ++ xs) := by
  induction xs with
  | nil => intro ops q; simp
  | cons x xs ih =>
    intro ops q
    rw [List.map_cons, List.cons_append, runQueue, addToPendingQueue, ih]
    simp

/-- Claim C2: enqueues followed by `drainAll` return exactly the enqueued
items in FIFO order, leaving the queue empty; an enqueue serialized after a
drain (the "concurrent" enqueue) is not lost, is excluded from that drain's
result, and is returned by the next drain. -/
theorem C2_pending_queue_fifo_drain (xs : List Nat) (y : Nat) :
    runQueue (xs.map QOp.enq ++ [QOp.drain]) [] = ([], [xs]) ∧
    runQueue (xs.map QOp.enq ++ [QOp.drain, QOp.enq y, QOp.drain]) [] =
      ([], [xs, [y]]) := by
  constructor
  · rw [runQueue_enqs]
    simp [runQueue, getPendingQueueItems]
  · rw [runQueue_enqs]
    simp [runQueue, getPendingQueueItems, addToPendingQueue]

/-- Claim C4: the claim (and the config's own comments) call for a new
segment every 30000 ms spanning 33000 ms, so that 33 s of audio yield exactly
2 segments, sealed at t = 0 and t = 30000, overlapping on [30000, 33000);
the shipped `AUDIO_CONFIG` instead has `STEP_MS = 3000` / `DURATION_MS =
3300`, so 33 s of audio start 12 segments, not 2.  (code_bug: values
contradict the comments "30 seconds between segments" / "33 seconds per
segment (3s overlap)".) -/
theorem C4_segment_cadence_mismatch :
    STEP_MS = 3000 ∧ DURATION_MS = 3300 ∧
    segmentStartTimes STEP_MS 33000 =
      [0, 3000, 6000, 9000, 12000, 15000, 18000, 21000, 24000, 27000,
        30000, 33000] ∧
    (segmentStartTimes STEP_MS 33000).length ≠ 2 ∧
    segmentStartTimes 30000 33000 = [0, 30000] ∧
    segmentSpan 33000 0 = (0, 33000) ∧
    segmentSpan 33000 30000 = (30000, 63000) := by
  refine ⟨rfl, rfl, by decide, by decide, by decide, rfl, rfl⟩

/-! ## Lemmas about the summarization scan -/

/-- The scan loop's overwrite-fold keeps only the last non-summary entry. -/
lemma scan_foldl_last (l : List TranscriptEntry) :
    ∀ acc : String,
      l.foldl (fun a t => if t.isPartSummary then a else t.text ++ "\n") acc =
        match (l.filter (fun t => !t.isPartSummary)).getLast? with
        | none => acc
        | some e => e.text ++ "\n" := by
  induction l with
  | nil => intro acc; rfl
  | cons t l ih =>
    intro acc
    by_cases ht : t.isPartSummary = true
    · simp only [List.foldl_cons, ht, if_true, List.filter_cons, Bool.not_true,
        Bool.false_eq_true, if_false]
      exact ih acc
    · rw [List.foldl_cons, if_neg (by simp [ht]), ih]
      have hfil : (t :: l).filter (fun t => !t.isPartSummary) =
          t :: l.filter (fun t => !t.isPartSummary) := by
        simp [List.filter_cons, ht]
      rw [hfil]
      cases hfl : (l.filter (fun t => !t.isPartSummary)).getLast? with
      | none =>
        have : l.filter (fun t => !t.isPartSummary) = [] := by
          cases h : l.filter (fun t => !t.isPartSummary) with
          | nil => rfl
          | cons x xs => rw [h] at hfl; simp [List.getLast?] at hfl
        simp [this]
      | some e =>
        have hne : l.filter (fun t => !t.isPartSummary) ≠ [] := by
          intro h; rw [h] at hfl; simp at hfl
        have : (t :: l.filter (fun t => !t.isPartSummary)).getLast? =
            (l.filter (fun t => !t.isPartSummary)).getLast? := by
          have := @List.getLast?_append_of_ne_nil TranscriptEntry [t]
            (l.filter (fun t => !t.isPartSummary)) hne
          simpa using this
        rw [this, hfl]

/-- The scan collects the last non-summary entry's text from the entries at
or beyond the cursor. -/
lemma scanSummaryText_eq (ts : List TranscriptEntry) (pos : Nat) :
    scanSummaryText ts pos = lastNonSummaryText (ts.drop pos) := by
  unfold scanSummaryText lastNonSummaryText
  exact scan_foldl_last (ts.drop pos) ""

/-- Counterexample to claim C3: with two non-summary entries "a" and "b"
pending, the summarizer is called with `"b\n"` — only the last scanned
entry's text — not with the concatenation `"a\nb\n"`; and when the
summarization call fails, the cursor stays at 0 instead of advancing to the
scanned end 2. -/
theorem C3_counterexample :
    (doPartSummary [⟨"a", false⟩, ⟨"b", false⟩] 0 (fun _ => some "S")).calledWith =
      some "b\n" ∧
    concatNonSummaryText [⟨"a", false⟩, ⟨"b", false⟩] = "a\nb\n" ∧
    ("b\n" : String) ≠ "a\nb\n" ∧
    (doPartSummary [⟨"a", false⟩, ⟨"b", false⟩] 0 (fun _ => none)).newPosition = 0 ∧
    (doPartSummary [⟨"a", false⟩, ⟨"b", false⟩] 0
      (fun _ => none)).newPosition ≠ 2 := by
  refine ⟨by decide, by decide, by decide, by decide, by decide⟩

/-- Claim C3 as amended: each invocation scans the entries from the cursor to
the current end, skipping previously produced summary entries; it keeps only
the text of the LAST scanned non-summary entry (with a trailing newline),
not the concatenation; it calls the summarization capability iff that text is
non-empty; on success it appends the result as a summary entry and advances
the cursor to the scanned end; if the summarization call fails the cursor is
left unchanged; it never re-includes an entry below the cursor, and with no
new entries the cursor is unchanged and no call is made. -/
theorem C3_summarization_amended (ts : List TranscriptEntry) (pos : Nat)
    (f : String → Option String) :
    scanSummaryText ts pos = lastNonSummaryText (ts.drop pos) ∧
    (∀ pre post : List TranscriptEntry,
      scanSummaryText (pre ++ post) pre.length = scanSummaryText post 0) ∧
    (ts.length ≤ pos →
      doPartSummary ts pos f = ⟨pos, none, none⟩) ∧
    (scanSummaryText ts pos = "" →
      doPartSummary ts pos f = ⟨pos, none, none⟩) ∧
    (∀ s, scanSummaryText ts pos ≠ "" → f (scanSummaryText ts pos) = some s →
      doPartSummary ts pos f =
        ⟨ts.length, some (scanSummaryText ts pos), some ⟨s, true⟩⟩) ∧
    (scanSummaryText ts pos ≠ "" → f (scanSummaryText ts pos) = none →
      doPartSummary ts pos f = ⟨pos, some (scanSummaryText ts pos), none⟩) := by
  refine ⟨scanSummaryText_eq ts pos, ?_, ?_, ?_, ?_, ?_⟩
  · intro pre post
    unfold scanSummaryText
    rw [List.drop_left, List.drop_zero]
  · intro hle
    have hnil : ts.drop pos = [] := List.drop_eq_nil_of_le hle
    have hscan : scanSummaryText ts pos = "" := by
      unfold scanSummaryText; rw [hnil]; rfl
    simp [doPartSummary, hscan]
  · intro hscan
    simp [doPartSummary, hscan]
  · intro s hne hf
    unfold doPartSummary
    rw [if_pos hne, hf]
  · intro hne hf
    unfold doPartSummary
    rw [if_pos hne, hf]

/-- Witness for the amended C3: one pending entry "a", a summarizer that
answers "S": the call receives `"a\n"`, the summary entry is appended and the
cursor advances to 1. -/
theorem C3_summarization_amended_witness :
    doPartSummary [⟨"a", false⟩] 0 (fun _ => some "S") =
      ⟨1, some "a\n", some ⟨"S", true⟩⟩ := by
  have h := (C3_summarization_amended [⟨"a", false⟩] 0
    (fun _ => some "S")).2.2.2.2.1 "S" (by decide) rfl
  have hscan : scanSummaryText [⟨"a", false⟩] 0 = "a\n" := by decide
  rw [hscan] at h
  simpa using h

/-! ## Lemmas about the transcript store -/

/-- Replaying a sequence of appends builds exactly the insertion sequence. -/
lemma foldl_addTranscript (entries : List StoredTranscript) :
    ∀ acc : List StoredTranscript,
      entries.foldl addTranscript acc = acc ++ entries := by
  induction entries with
  | nil => intro acc; simp
  | cons e entries ih =>
    intro acc
    rw [List.foldl_cons, ih]
    simp [addTranscript]

/-- Counterexample to claim C5: appending an entry with timestamp 2 and then
one with timestamp 1, the read-back is in insertion order `[2, 1]`, not the
timestamp-sorted order `[1, 2]` the claim requires — nothing in the store
ever sorts. -/
theorem C5_counterexample :
    getTranscripts (addTranscript (addTranscript [] ⟨2, 0, "late"⟩) ⟨1, 0, "early"⟩) =
      [⟨2, 0, "late"⟩, ⟨1, 0, "early"⟩] ∧
    stableSortByTimestamp [⟨2, 0, "late"⟩, ⟨1, 0, "early"⟩] =
      [⟨1, 0, "early"⟩, ⟨2, 0, "late"⟩] ∧
    getTranscripts (addTranscript (addTranscript [] ⟨2, 0, "late"⟩) ⟨1, 0, "early"⟩) ≠
      stableSortByTimestamp [⟨2, 0, "late"⟩, ⟨1, 0, "early"⟩] := by
  refine ⟨rfl, by decide, by decide⟩

/-- Claim C5 as amended: reading the transcript yields the entries in
insertion (append) order; this equals the stable sort of the insertion
sequence by timestamp exactly when the entries were inserted with
non-decreasing timestamps (in particular it is NOT timestamp-sorted for
out-of-order interleavings). -/
theorem C5_transcript_order_amended (entries : List StoredTranscript)
    (hsorted : entries.Sorted (fun a b => a.timestamp ≤ b.timestamp)) :
    getTranscripts (entries.foldl addTranscript []) = entries ∧
    getTranscripts (entries.foldl addTranscript []) = stableSortByTimestamp entries := by
  have hread : getTranscripts (entries.foldl addTranscript []) = entries := by
    rw [getTranscripts, foldl_addTranscript]
    simp
  refine ⟨hread, ?_⟩
  rw [hread, stableSortByTimestamp, List.Sorted.insertionSort_eq hsorted]

/-- Witness for the amended C5: two entries appended with non-decreasing
timestamps read back unchanged and already timestamp-sorted. -/
theorem C5_transcript_order_amended_witness :
    getTranscripts ([(⟨1, 0, "x"⟩ : StoredTranscript), ⟨2, 1, "y"⟩].foldl
        addTranscript []) = [⟨1, 0, "x"⟩, ⟨2, 1, "y"⟩] ∧
    getTranscripts ([(⟨1, 0, "x"⟩ : StoredTranscript), ⟨2, 1, "y"⟩].foldl
        addTranscript []) =
      stableSortByTimestamp [⟨1, 0, "x"⟩, ⟨2, 1, "y"⟩] :=
  C5_transcript_order_amended [⟨1, 0, "x"⟩, ⟨2, 1, "y"⟩]
    (by simp [List.Sorted, List.sorted_cons])

/-- Counterexample to claim C8: calling `off(type)` (no handler argument)
when no handler is registered for that type does NOT throw — it deletes the
(absent) entry and returns normally. -/
theorem C8_counterexample :
    ehOff ([] : HandlerMap) "session.created" none =
      .ok ([] : HandlerMap) := rfl

/-- Claim C8 as amended: `off(type)` without a handler never throws (it
removes all handlers for that type, a no-op when none are registered);
`on(type, h1)` then `on(type, h2)` then `off(type, h1)` removes only `h1`,
leaving `h2` registered; and `off(type, h)` for a handler `h` that was never
registered for `type` throws. -/
theorem C8_off_semantics_amended (m : HandlerMap) (name : String)
    (h1 h2 h : Nat) (hnr : h ∉ ehGet m name) :
    ehOff m name none = .ok (ehDeleteKey m name) ∧
    ehOff (ehOn (ehOn ([] : HandlerMap) name h1) name h2) name (some h1) =
      .ok [(name, [h2])] ∧
    ehOff m name (some h) =
      .error ("Could not turn off specified event listener for \"" ++ name ++
        "\": not found as a listener") := by
  refine ⟨rfl, ?_, ?_⟩
  · have hon1 : ehOn ([] : HandlerMap) name h1 = [(name, [h1])] := by
      simp [ehOn, ehGet, ehSet, List.lookup]
    have hon2 : ehOn [(name, [h1])] name h2 = [(name, [h1, h2])] := by
      simp [ehOn, ehGet, ehSet, List.lookup]
    rw [hon1, hon2]
    have hget : ehGet [(name, [h1, h2])] name = [h1, h2] := by
      simp [ehGet, List.lookup]
    simp [ehOff, hget, removeFirst, ehSet, List.lookup]
  · have hcont : (ehGet m name).contains h = false := by
      simpa using hnr
    simp [ehOff, hcont, hnr]

/-- Witness for the amended C8: on a bus with one handler `7` registered for
"close", `off("missing")` succeeds as a no-op, the on/on/off sequence leaves
only the second handler, and `off("close", 9)` throws. -/
theorem C8_off_semantics_amended_witness :
    ehOff [("close", [7])] "missing" none = .ok [("close", [7])] ∧
    ehOff (ehOn (ehOn ([] : HandlerMap) "close" 7) "close" 8) "close" (some 7) =
      .ok [("close", [8])] ∧
    ehOff [("close", [7])] "close" (some 9) =
      .error ("Could not turn off specified event listener for \"close\"" ++
        ": not found as a listener") := by
  have h := C8_off_semantics_amended [("close", [7])] "close" 7 8 9 (by decide)
  have hdel : ehDeleteKey [("close", [7])] "missing" = [("close", [7])] := by decide
  have hnone := (C8_off_semantics_amended [("close", [7])] "missing" 7 8 9
    (by decide)).1
  rw [hdel] at hnone
  refine ⟨hnone, h.2.1, ?_⟩
  have := h.2.2
  simpa using this

/-! ## Lemmas about association-list lookup (for the session-config merge) -/

/-- Lookup distributes over append, preferring the left list. -/
lemma lookup_append {β : Type} (l₁ l₂ : List (String × β)) (k : String) :
    (l₁ ++ l₂).lookup k = ((l₁.lookup k).or (l₂.lookup k)) := by
  induction l₁ with
  | nil => simp
  | cons kv rest ih =>
    obtain ⟨k', v⟩ := kv
    by_cases h : k = k'
    · simp [List.lookup, h]
    · have hb : (k == k') = false := beq_eq_false_iff_ne.mpr h
      simp [List.lookup, hb, ih]

/-- Lookup after a key-preserving map applies the mapped function. -/
lemma lookup_map_snd {β γ : Type} (g : String → β → γ) (l : List (String × β))
    (k : String) :
    (l.map (fun kv => (kv.1, g kv.1 kv.2))).lookup k = (l.lookup k).map (g k) := by
  induction l with
  | nil => simp
  | cons kv rest ih =>
    obtain ⟨k', v⟩ := kv
    by_cases h : k = k'
    · simp [List.lookup, h]
    · have hb : (k == k') = false := beq_eq_false_iff_ne.mpr h
      simp [List.lookup, hb, ih]

/-- Lookup in a list filtered on keys. -/
lemma lookup_filter_key {β : Type} (l : List (String × β)) (q : String → Bool)
    (k : String) :
    (l.filter (fun kv => q kv.1)).lookup k = if q k then l.lookup k else none := by
  induction l with
  | nil => simp
  | cons kv rest ih =>
    obtain ⟨k', v⟩ := kv
    by_cases h : k = k'
    · subst h
      cases hq : q k <;> simp [List.lookup, hq, ih]
    · have hb : (k == k') = false := beq_eq_false_iff_ne.mpr h
      cases hq : q k' <;> simp [List.lookup, hb, hq, ih]

/-- The spread merge resolves a key to the patch's binding when present,
else to the original's. -/
lemma lookup_spreadMerge (a b : Cfg) (k : String) :
    (spreadMerge a b).lookup k = ((b.lookup k).or (a.lookup k)) := by
  rw [spreadMerge, lookup_append,
    lookup_map_snd (fun k v => ((b.lookup k).getD v)) a k,
    lookup_filter_key b (fun k => (a.lookup k).isNone) k]
  cases ha : a.lookup k <;> cases hb : b.lookup k <;> simp [ha, hb]

/-- Counterexample to claim C9: `updateSession` does NOT deep-merge nested
configuration objects — patching `turn_detection` with `{type: "none"}`
replaces the whole nested object, losing `threshold`, where a deep
(recursive) merge would keep it. -/
theorem C9_counterexample :
    updateSession
        [("turn_detection", CfgVal.table [("type", "server_vad"), ("threshold", "0.5")])]
        true
        [("turn_detection", CfgVal.table [("type", "none")])] =
      ([("turn_detection", CfgVal.table [("type", "none")])],
        some [("turn_detection", CfgVal.table [("type", "none")])]) ∧
    deepMerge
        [("turn_detection", CfgVal.table [("type", "server_vad"), ("threshold", "0.5")])]
        [("turn_detection", CfgVal.table [("type", "none")])] =
      [("turn_detection", CfgVal.table [("type", "none"), ("threshold", "0.5")])] ∧
    (updateSession
        [("turn_detection", CfgVal.table [("type", "server_vad"), ("threshold", "0.5")])]
        true
        [("turn_detection", CfgVal.table [("type", "none")])]).1 ≠
      deepMerge
        [("turn_detection", CfgVal.table [("type", "server_vad"), ("threshold", "0.5")])]
        [("turn_detection", CfgVal.table [("type", "none")])] := by
  refine ⟨by decide, by decide, by decide⟩

/-- Claim C9 as amended: `updateSession(partialConfig)` merges the partial
configuration into the stored session configuration at the TOP level only (a
key present in the patch replaces the stored value wholesale, a key absent
from the patch keeps its stored value — a shallow spread merge, not a
recursive deep merge); if the client is connected the merged configuration is
re-sent over the connection, and if not connected only the stored
configuration changes. -/
theorem C9_update_session_amended (cfg patch : Cfg) (k : String) (connected : Bool) :
    (updateSession cfg connected patch).1 = spreadMerge cfg patch ∧
    (updateSession cfg true patch).2 = some (spreadMerge cfg patch) ∧
    (updateSession cfg false patch).2 = none ∧
    (patch.lookup k = none →
      (spreadMerge cfg patch).lookup k = cfg.lookup k) ∧
    (∀ v, patch.lookup k = some v →
      (spreadMerge cfg patch).lookup k = some v) := by
  refine ⟨rfl, rfl, rfl, ?_, ?_⟩
  · intro h
    rw [lookup_spreadMerge, h]
    rfl
  · intro v h
    rw [lookup_spreadMerge, h]
    rfl

/-- Witness for the amended C9: a key absent from the patch keeps its stored
value; a key present in the patch takes the patch's value wholesale. -/
theorem C9_update_session_amended_witness :
    (spreadMerge [("model", CfgVal.atom "gpt")] [("lang", CfgVal.atom "en")]).lookup
        "model" = some (CfgVal.atom "gpt") ∧
    (spreadMerge [("model", CfgVal.atom "gpt")] [("model", CfgVal.atom "mini")]).lookup
        "model" = some (CfgVal.atom "mini") := by
  have h1 := (C9_update_session_amended [("model", CfgVal.atom "gpt")]
    [("lang", CfgVal.atom "en")] "model" true).2.2.2.1 (by decide)
  have h2 := (C9_update_session_amended [("model", CfgVal.atom "gpt")]
    [("model", CfgVal.atom "mini")] "model" true).2.2.2.2
    (CfgVal.atom "mini") (by decide)
  rw [h1]
  exact ⟨by decide, h2⟩

/-! ## Lemmas about the base64 round trip -/

/-- Decoding the base64 character of a sextet recovers the sextet. -/
lemma b64Index_b64Char {n : Nat} (h : n < 64) : b64Index (b64Char n) = some n := by
  have hall : ∀ i : Fin 64, b64Index (b64Char i.val) = some i.val := by decide
  exact hall ⟨n, h⟩

/-- A base64 alphabet character is never the padding character. -/
lemma b64Char_ne_pad {n : Nat} (h : n < 64) : (b64Char n == '=') = false := by
  have hall : ∀ i : Fin 64, (b64Char i.val == '=') = false := by decide
  exact hall ⟨n, h⟩

/-- The encoder's chunk loop reassembles exactly the input bytes. -/
lemma chunkConcat_le : ∀ (n : Nat) (l : List Nat), l.length ≤ n → chunkConcat l = l
  | n, l, hle => by
    rw [chunkConcat]
    by_cases h : l = []
    · simp [h]
    · rw [if_neg h]
      have h0 : l.length ≠ 0 := by simpa [List.length_eq_zero] using h
      have hlt : (l.drop ENCODER_CHUNK_SIZE).length ≤ n - 1 := by
        simp only [List.length_drop, ENCODER_CHUNK_SIZE]
        omega
      rw [chunkConcat_le (n - 1) _ hlt, List.take_append_drop]
termination_by n => n
decreasing_by
  have h0 : l.length ≠ 0 := by simpa [List.length_eq_zero] using h
  omega

/-- The encoder's chunk loop is the identity on the byte list. -/
lemma chunkConcat_id (l : List Nat) : chunkConcat l = l :=
  chunkConcat_le l.length l le_rfl

/-- Carry arithmetic for the base64 sextets. -/
lemma b64_div16 (a b : Nat) (hb : b < 256) :
    (a % 4 * 16 + b / 16) / 16 = a % 4 := by
  rw [Nat.add_comm, Nat.add_mul_div_right _ _ (by norm_num : (0:Nat) < 16)]
  omega

/-- Carry arithmetic for the base64 sextets. -/
lemma b64_mod16 (a b : Nat) (hb : b < 256) :
    (a % 4 * 16 + b / 16) % 16 = b / 16 := by
  rw [Nat.add_comm, Nat.add_mul_mod_self_right]
  omega

/-- Carry arithmetic for the base64 sextets. -/
lemma b64_div4 (b c : Nat) (hc : c < 256) :
    (b % 16 * 4 + c / 64) / 4 = b % 16 := by
  rw [Nat.add_comm, Nat.add_mul_div_right _ _ (by norm_num : (0:Nat) < 4)]
  rw [Nat.div_eq_of_lt (show c / 64 < 4 by omega)]
  omega

/-- Carry arithmetic for the base64 sextets. -/
lemma b64_mod4 (b c : Nat) (hc : c < 256) :
    (b % 16 * 4 + c / 64) % 4 = c / 64 := by
  rw [Nat.add_comm, Nat.add_mul_mod_self_right]
  omega

/-- Standard base64 decode inverts encode on byte lists. -/
lemma atob_btoa : ∀ (l : List Nat), (∀ x ∈ l, x < 256) → atob (btoa l) = some l
  | [], _ => rfl
  | [a], h => by
    have ha : a < 256 := h a (by simp)
    simp only [btoa, atob,
      b64Index_b64Char (show a / 4 < 64 by omega),
      b64Index_b64Char (show a % 4 * 16 < 64 by omega),
      beq_self_eq_true, Bool.and_self, List.isEmpty_nil, Bool.and_true, if_true,
      Option.some_bind, Option.map_some', Option.some.injEq, List.cons.injEq,
      and_true]
    have e : a % 4 * 16 / 16 = a % 4 := by simp
    rw [e]
    omega
  | [a, b], h => by
    have ha : a < 256 := h a (by simp)
    have hb : b < 256 := h b (by simp)
    simp only [btoa, atob,
      b64Index_b64Char (show a / 4 < 64 by omega),
      b64Index_b64Char (show a % 4 * 16 + b / 16 < 64 by omega),
      b64Index_b64Char (show b % 16 * 4 < 64 by omega),
      b64Char_ne_pad (show b % 16 * 4 < 64 by omega),
      beq_self_eq_true, List.isEmpty_nil, Bool.and_self, Bool.and_true,
      Bool.false_and, Bool.and_false, Bool.false_eq_true, if_false, if_true,
      Option.some_bind, Option.map_some', Option.some.injEq, List.cons.injEq,
      and_true]
    have e2 : b % 16 * 4 / 4 = b % 16 := by simp
    rw [b64_div16 a b hb, b64_mod16 a b hb, e2]
    constructor
    · omega
    · omega
  | a :: b :: c :: rest, h => by
    have ha : a < 256 := h a (by simp)
    have hb : b < 256 := h b (by simp)
    have hc : c < 256 := h c (by simp)
    have ih := atob_btoa rest (fun x hx => h x (by simp [hx]))
    simp only [btoa, atob,
      b64Index_b64Char (show a / 4 < 64 by omega),
      b64Index_b64Char (show a % 4 * 16 + b / 16 < 64 by omega),
      b64Index_b64Char (show b % 16 * 4 + c / 64 < 64 by omega),
      b64Index_b64Char (show c % 64 < 64 by omega),
      b64Char_ne_pad (show b % 16 * 4 + c / 64 < 64 by omega),
      b64Char_ne_pad (show c % 64 < 64 by omega),
      Bool.false_and, Bool.and_false, Bool.false_eq_true, if_false, ih,
      Option.some_bind, Option.map_some', Option.some.injEq, List.cons.injEq,
      and_true]
    rw [b64_div16 a b hb, b64_mod16 a b hb, b64_div4 b c hc, b64_mod4 b c hc]
    exact ⟨by omega, by omega, by omega⟩

/-- Claim C10: for every byte buffer, decoding the base64 encoding
(`base64ToArrayBuffer ∘ arrayBufferToBase64`) recovers a buffer with exactly
the original length and byte contents — for all lengths, including zero and
lengths that are not multiples of the encoder's 32768-byte chunk size. -/
theorem C10_base64_roundtrip (bytes : List Nat) (h : ∀ x ∈ bytes, x < 256) :
    base64ToArrayBuffer (arrayBufferToBase64 bytes) = some bytes ∧
    ∀ out, base64ToArrayBuffer (arrayBufferToBase64 bytes) = some out →
      out.length = bytes.length ∧ out = bytes := by
  have hrt : base64ToArrayBuffer (arrayBufferToBase64 bytes) = some bytes := by
    rw [base64ToArrayBuffer, arrayBufferToBase64, chunkConcat_id]
    exact atob_btoa bytes h
  refine ⟨hrt, ?_⟩
  intro out hout
  rw [hrt] at hout
  obtain rfl : bytes = out := by simpa using hout
  exact ⟨rfl, rfl⟩

/-- Witness for C10: a 5-byte buffer (not a multiple of 3 or of the chunk
size) and the empty buffer both round-trip exactly. -/
theorem C10_base64_roundtrip_witness :
    base64ToArrayBuffer (arrayBufferToBase64 [0, 255, 16, 127, 200]) =
      some [0, 255, 16, 127, 200] ∧
    base64ToArrayBuffer (arrayBufferToBase64 []) = some [] :=
  ⟨(C10_base64_roundtrip [0, 255, 16, 127, 200] (by decide)).1,
    (C10_base64_roundtrip [] (by decide)).1⟩

end Transcriber
